import Mathlib

/-!
# jwt-aaa: token authentication and role based authorization in front of gRPC calls

A shallow embedding of `cmd/server/server.go` and `cmd/client/client.go`.

* Go maps (`map[string]*userInfo`, `metadata.MD`, `roleByMethod`) are finite partial functions;
  they are embedded as functions into `Option`, a missing key being `none`.
* A Go `error` is an `Option String` (`none` is `nil`) or the error side of `Except String`.
* `log.Printf` / `log.Println` have no influence on results and are left out;
  `log.Fatalf` ends the process and is the error side of `Except GoString`, its message.
* A Go string is a sequence of bytes.  Identities (the uid of the command line, the keys of
  the registry, the `UID` of a claim) are embedded as `GoString`, which keeps the bytes that are
  not valid UTF-8, and so are the messages that quote them; the other strings of the program
  (roles, method names, tokens, file names, error texts) are embedded as `String`.
* The packages `jwt-go`, `encoding/json`, `crypto/rsa`, `grpc` and `metadata` are not part of the
  repository sources.  What the program needs from them is the record `JwtLib` and the
  definitions marked as modelled from the specification.
-/

namespace JwtAaa

/-! ## Go strings -/

/-- One step of reading a Go string the way `for range` reads it: the rune of a valid UTF-8
sequence, or one byte that belongs to no valid UTF-8 sequence. -/
inductive GoChar where
  | rune (c : Char)
  | raw (b : Nat)
deriving DecidableEq, Repr

/-- A Go string, as the sequence of its runes and of its bytes outside valid UTF-8.  Every
byte string has exactly one such decomposition; a list that is no such decomposition (`raw`
bytes that together are valid UTF-8) stands for no Go string. -/
abbrev GoString := List GoChar

/-- The Go string of a text, such as a string literal of the source. -/
def go (s : String) : GoString := s.data.map GoChar.rune

/-- The rune `utf8.RuneError`, U+FFFD. -/
def RuneError : Char := Char.ofNat 65533

/-- The string is valid UTF-8: it has no byte outside a valid sequence. -/
def GoString.ValidUTF8 : GoString → Bool
  | [] => true
  | .rune _ :: rest => GoString.ValidUTF8 rest
  | .raw _ :: _ => false

/-- The runes that reading the string yields, `utf8.RuneError` for each byte that is not
valid UTF-8. -/
def GoString.runes : GoString → List Char
  | [] => []
  | .rune c :: rest => c :: GoString.runes rest
  | .raw _ :: rest => RuneError :: GoString.runes rest

/-- Modelled from the spec: part of serialising a Claim (section 4.1, Issue), done by the
package `encoding/json`, not part of the repository sources: a string is written as valid
UTF-8, each byte that is not valid UTF-8 being replaced by U+FFFD. -/
def GoString.toValidUTF8 (g : GoString) : GoString := g.runes.map GoChar.rune

/-! ## Data model -/

/-- CustomClaim specifies the user that the client claims to be. -/
structure CustomClaim where
  UID : GoString
deriving DecidableEq, Repr

/-- Valid if a UID is claimed; the result is the Go error, `none` being `nil`. -/
def CustomClaim.Valid (c : CustomClaim) : Option String :=
  if c.UID = go "" then some "invalid claim" else none

/-- Configured RBAC information.  `K` is the type of the values stored in the
`key interface{}` slot. -/
structure userInfo (K : Type) where
  KeyFile : String
  key : K
  Roles : List String
deriving DecidableEq, Repr

/-- The field `rbac map[string]*userInfo` of `serverImpl`, every stored pointer being non-nil
(the only entries `main` ever stores are `&userInfo{}` values). -/
abbrev Registry (K : Type) := GoString → Option (userInfo K)

/-- Security configuration that maps methods to required roles (the map literal). -/
def roleByMethodTable : List (String × List String) :=
  [ ("/example.Example/GetServiceValue", ["reader", "writer"]),
    ("/example.Example/SetServiceValue", ["writer"]) ]

/-- The map index `roleByMethod[m]` with its `ok` flag. -/
def roleByMethod (m : String) : Option (List String) :=
  roleByMethodTable.lookup m

/-- The inner loop of `match`: is `h` equal to one of the `require` roles. -/
def matchOne (h : String) : List String → Bool
  | [] => false
  | r :: rs => if h = r then true else matchOne h rs

/-- Source function `match` (a reserved word here): check if one of the "have" roles is in
one of the "required" roles. -/
def matchRoles : List String → List String → Bool
  | [], _ => false
  | h :: hs, require => if matchOne h require then true else matchRoles hs require

/-! ## Transport -/

/-- The type `metadata.MD`, a `map[string][]string`. -/
abbrev MD := String → Option (List String)

/-- The metadata built by `metadata.Pairs(k, v)`: the one key `k` with the one value `v`. -/
def MD.Pairs (k v : String) : MD := fun x => if x = k then some [v] else none

/-- What the program uses of a `context.Context`: the incoming metadata
(`metadata.FromIncomingContext`), the outgoing metadata (`metadata.NewOutgoingContext`) and the
value of `ctx.Err()` (`none` while the context is neither cancelled nor past its deadline). -/
structure Context where
  incoming : Option MD
  outgoing : Option MD
  err : Option String

/-- The type `grpc.UnaryServerInfo`. -/
structure UnaryServerInfo where
  FullMethod : String
deriving DecidableEq, Repr

/-! ## Token library -/

/-- A JSON value as far as decoding into a Go `string` field distinguishes them:
`other` is any value that is neither `null` nor a string. -/
inductive JVal where
  | null
  | str (s : GoString)
  | other
deriving DecidableEq, Repr

/-- The JSON document of a claims segment: an object with its members in order, `null`, or
any other value. -/
inductive JDoc where
  | object (members : List (String × JVal))
  | null
  | other
deriving DecidableEq, Repr

/-- The three segments of a compact token after splitting and decoding. -/
structure Segments where
  alg : String
  claims : JDoc
  signingInput : String
  signature : String
deriving DecidableEq, Repr

/-- Modelled from the spec: the Token Codec of the specification (section 4.1), which the
program takes from the package `jwt-go`, not part of the repository sources.  `parseSegments`
splits a token string and decodes header and claims without checking the signature (`none`:
malformed token or unavailable signing method), `verify alg signingInput signature key` is the
signature check of the signing method, and `signedString alg claims key` serialises and signs.
`K` are the keys given to verification, `P` the keys given to signing. -/
structure JwtLib (K P : Type) where
  parseSegments : String → Option Segments
  verify : String → String → String → K → Bool
  signedString : String → JDoc → P → Except String String

/-- Modelled from the spec: part of decoding the token's claim portion into a Claim (section
4.1), done by the package `encoding/json`, not part of the repository sources: an object key
is matched with the untagged struct field `UID` by the exact name or the name up to ASCII
letter case. -/
def fieldMatchesUID (key : String) : Bool :=
  key.data.map Char.toUpper == ['U', 'I', 'D']

/-- Modelled from the spec: `encoding/json` decoding the members of an object into a
`*CustomClaim`, in order.  A string sets the field, `null` leaves it, any other value is a type
error; decoding goes on after an error and reports the first one. -/
def unmarshalMembers : List (String × JVal) → CustomClaim × Option String → CustomClaim × Option String
  | [], st => st
  | (k, v) :: rest, (c, e) =>
    if fieldMatchesUID k then
      match v with
      | .str s => unmarshalMembers rest ({ UID := s }, e)
      | .null => unmarshalMembers rest (c, e)
      | .other =>
        unmarshalMembers rest (c, if e = none then some "json: cannot unmarshal into Go struct field CustomClaim.UID of type string" else e)
    else unmarshalMembers rest (c, e)

/-- Modelled from the spec: `encoding/json` decoding a claims document into a `*CustomClaim`. -/
def decodeClaims (doc : JDoc) (claims : CustomClaim) : CustomClaim × Option String :=
  match doc with
  | .object members => unmarshalMembers members (claims, none)
  | .null => (claims, none)
  | .other => (claims, some "json: cannot unmarshal into Go value of type main.CustomClaim")

/-- The result of token verification: the claims as decoded, the error and the registry keys
that were read. -/
structure ParseResult where
  claims : CustomClaim
  err : Option String
  lookups : List GoString
deriving DecidableEq, Repr

/-- Modelled from the spec: `Verify(tokenString, keyResolver)` of the Token Codec
(`jwt.ParseWithClaims`): the claims are decoded before the signature is checked, the resolver
is asked for the key, then the claim's validity check and the signature check against the
resolved key decide.  The resolver returns its result together with the registry keys it read. -/
def ParseWithClaims {K P : Type} (L : JwtLib K P) (tokenString : String) (claims : CustomClaim)
    (keyFunc : CustomClaim → Except String K × List GoString) : ParseResult :=
  match L.parseSegments tokenString with
  | none => ⟨claims, some "token contains an invalid number of segments", []⟩
  | some seg =>
    match decodeClaims seg.claims claims with
    | (claims, some e) => ⟨claims, some e, []⟩
    | (claims, none) =>
      match keyFunc claims with
      | (.error e, reads) => ⟨claims, some e, reads⟩
      | (.ok key, reads) =>
        if L.verify seg.alg seg.signingInput seg.signature key then
          ⟨claims, claims.Valid, reads⟩
        else ⟨claims, some "crypto/rsa: verification error", reads⟩

/-! ## Server: the authorization interceptor -/

/-- The first component of the pair the interceptor returns on a rejection. -/
inductive Reply where
  | emptyMsg
  | nil
deriving DecidableEq, Repr

/-- What a call of the interceptor does: it returns a response and an error of its own, it
returns what `handler(ctx, req)` returns, or it stops with a runtime panic. -/
inductive Outcome (R : Type) where
  | rejected (resp : Reply) (err : String)
  | invoked (result : R)
  | fault (msg : String)
deriving DecidableEq, Repr

/-- The outcome of a call together with the keys with which `s.rbac` was read, in order. -/
structure GateResult (R : Type) where
  outcome : Outcome R
  lookups : List GoString
deriving DecidableEq, Repr

/-- The key resolver, the function literal passed to `jwt.ParseWithClaims` (server.go 86-98). -/
def keyFunc {K : Type} (rbac : Registry K) (claims : CustomClaim) :
    Except String K × List GoString :=
  if claims.Valid ≠ none then (.error "not authorized", [])
  else
    match rbac claims.UID with
    | none => (.error "not authorized", [claims.UID])
    | some user => (.ok user.key, [claims.UID])

/-- authorizationInterceptor verifies the required token and then verifies that the
user has the required role for a method. -/
def authorizationInterceptor {K P Req R : Type} (L : JwtLib K P) (rbac : Registry K)
    (ctx : Context) (req : Req) (info : UnaryServerInfo) (handler : Context → Req → R) :
    GateResult R :=
  match ctx.incoming with
  | none => ⟨.rejected .emptyMsg "not authorized", []⟩
  | some md =>
    match md "jwt" with
    | none => ⟨.rejected .emptyMsg "not authorized", []⟩
    | some tokenString =>
      match tokenString with
      | [] => ⟨.fault "index out of range [0] with length 0", []⟩
      | tok :: _ =>
        let res := ParseWithClaims L tok { UID := go "" } (keyFunc rbac)
        if res.err ≠ none then ⟨.rejected .emptyMsg "not authorized", res.lookups⟩
        else
          match roleByMethod info.FullMethod with
          | none => ⟨.rejected .nil "not authorized", res.lookups⟩
          | some roles =>
            match rbac res.claims.UID with
            | none => ⟨.fault "invalid memory address or nil pointer dereference", res.lookups ++ [res.claims.UID]⟩
            | some user =>
              if !matchRoles user.Roles roles then
                ⟨.rejected .nil "not authorized", res.lookups ++ [res.claims.UID]⟩
              else ⟨.invoked (handler ctx req), res.lookups ++ [res.claims.UID]⟩

/-! ## Server: start-up -/

/-- The map assignment `rbac[uid] = info`, also the effect of writing through the pointer
stored under `uid`. -/
def mapSet {K : Type} (rbac : Registry K) (uid : GoString) (info : userInfo K) : Registry K :=
  fun x => if x = uid then some info else rbac x

/-- Read and parse the user public keys (server.go 195-212), `users` in the order in which
the loop visits the map.  `ReadFile` is `ioutil.ReadFile`, `ParseRSAPublicKeyFromPEM` the
library function of that name.  An entry found under `uid` keeps its `Roles`, a new one
starts as `&userInfo{}`; both get the key file and the key. -/
def loadKeys {K : Type} (ReadFile : String → Except String String)
    (ParseRSAPublicKeyFromPEM : String → Except String K) :
    List (GoString × String) → Registry K → Except GoString (Registry K)
  | [], rbac => .ok rbac
  | (uid, pubKeyFile) :: rest, rbac =>
    match ReadFile pubKeyFile with
    | .error err =>
      .error (go "ERROR: unable to read user " ++ uid ++ go "'s public key file '"
        ++ go pubKeyFile ++ go "': " ++ go err ++ go "\n")
    | .ok keyBytes =>
      match ParseRSAPublicKeyFromPEM keyBytes with
      | .error err =>
        .error (go "ERROR: unable to parse user " ++ uid ++ go "'s public key file '"
          ++ go pubKeyFile ++ go "': " ++ go err ++ go "\n")
      | .ok key =>
        let Roles := match rbac uid with
          | some info => info.Roles
          | none => []
        loadKeys ReadFile ParseRSAPublicKeyFromPEM rest
          (mapSet rbac uid { KeyFile := pubKeyFile, key := key, Roles := Roles })

/-- Assign users to roles (server.go 214-228): one of the two loops, `role` being "reader"
for the first and "writer" for the second. -/
def assignRole {K : Type} (role : String) :
    List GoString → Registry K → Except GoString (Registry K)
  | [], rbac => .ok rbac
  | uid :: rest, rbac =>
    match rbac uid with
    | none =>
      .error (go "ERROR: " ++ go role ++ go " role specified for unknown user '" ++ uid
        ++ go "'\n")
    | some info => assignRole role rest (mapSet rbac uid { info with Roles := info.Roles ++ [role] })

/-- The two role loops of `main` on a registry. -/
def assignRoles {K : Type} (readers writers : List GoString) (rbac : Registry K) :
    Except GoString (Registry K) :=
  match assignRole "reader" readers rbac with
  | .error e => .error e
  | .ok rbac => assignRole "writer" writers rbac

/-- The server's `main` from the parsed flags to the registry with which the server starts
(server.go 190-228); an error is the message of the `log.Fatalf` that ends the process, a
Go string as it has the uid in it. -/
def main {K : Type} (ReadFile : String → Except String String)
    (ParseRSAPublicKeyFromPEM : String → Except String K)
    (users : List (GoString × String)) (readers writers : List GoString) :
    Except GoString (Registry K) :=
  match loadKeys ReadFile ParseRSAPublicKeyFromPEM users (fun _ => none) with
  | .error e => .error e
  | .ok rbac => assignRoles readers writers rbac

/-! ## Client -/

/-- The type `grpc.UnaryClientInterceptor`, with the context, the method and the request of
the call and the invoker. -/
abbrev UnaryClientInterceptor (Req R : Type) :=
  Context → String → Req → (Context → String → Req → R) → R

/-- newAuthorizationInterceptor constructs a new authorizationIntercepter based on the given
client information. -/
def newAuthorizationInterceptor {K P Req R : Type} (L : JwtLib K P)
    (ReadFile : String → Except String String)
    (ParseRSAPrivateKeyFromPEM : String → Except String P)
    (uid : GoString) (keyFile : String) : Except String (UnaryClientInterceptor Req R) :=
  match ReadFile keyFile with
  | .error err =>
    .error ("ERROR: unable to read private key file '" ++ keyFile ++ "': " ++ err ++ "\n")
  | .ok keyBytes =>
    match ParseRSAPrivateKeyFromPEM keyBytes with
    | .error err =>
      .error ("ERROR: unable to parse private key file '" ++ keyFile ++ "': " ++ err ++ "\n")
    | .ok key =>
      match L.signedString "RS256" (.object [("uid", .str uid.toValidUTF8)]) key with
      | .error err => .error ("ERROR: unable to sign JWT: " ++ err ++ "\n")
      | .ok tokenString =>
        .ok (fun ctx method req invoker =>
          invoker { ctx with outgoing := some (MD.Pairs "jwt" tokenString) } method req)

/-- Modelled from the spec: the transport boundary (section 6), gRPC, not part of the
repository sources: the metadata a client attaches to an outgoing call is the incoming
metadata of the call on the server. -/
def deliver (ctx : Context) : Context :=
  { incoming := ctx.outgoing, outgoing := none, err := ctx.err }

/-! ## A small instance of the library -/

/-- A token library with one-character keys, for evaluating the definitions: a token is the
signing key followed by the claimed uid, and a signature verifies under the key that made
it. -/
def demoLib : JwtLib Char Char where
  parseSegments := fun tok =>
    match tok.data with
    | [] => none
    | k :: rest =>
      some { alg := "RS256", claims := .object [("uid", .str (go (String.mk rest)))],
             signingInput := String.mk rest, signature := String.singleton k }
  verify := fun alg _ sig key => alg == "RS256" && sig == String.singleton key
  signedString := fun alg claims key =>
    match claims with
    | .object [("uid", .str uid)] =>
      if alg = "RS256" then
        if uid.ValidUTF8 then .ok (String.mk (key :: uid.runes))
        else .error "json: invalid UTF-8 in string"
      else .error "key is of invalid type"
    | _ => .error "unsupported claims"

/-- The requests of the example service carry no data. -/
abbrev Empty := Unit

/-- A handler that answers with the context error it saw and a marker string. -/
def demoHandler (ctx : Context) (_ : Empty) : Option String × String :=
  (ctx.err, "SERVER - INVOKED")

/-- A registry with joe (key `j`, reader) and mary (key `m`, writer). -/
def demoRbac : Registry Char := fun uid =>
  if uid = go "joe" then some { KeyFile := "joe_id.pkcs8", key := 'j', Roles := ["reader"] }
  else if uid = go "mary" then some { KeyFile := "mary_id.pkcs8", key := 'm', Roles := ["writer"] }
  else none

/-- A file system with the key files of joe and mary; a key file holds the key character. -/
def demoReadFile (name : String) : Except String String :=
  if name = "joe_id.pkcs8" then .ok "j"
  else if name = "mary_id.pkcs8" then .ok "m"
  else if name = "joe_id" then .ok "j"
  else .error "open: no such file or directory"

/-- Key parsing of the small instance: the file content is the one key character. -/
def demoParseKey (keyBytes : String) : Except String Char :=
  match keyBytes.data with
  | [c] => .ok c
  | _ => .error "invalid key: key must be PEM encoded"

/-- The registry `loadKeys` builds from the key files of joe and mary. -/
def demoLoaded : Registry Char :=
  mapSet (mapSet (fun _ => none) (go "joe")
      { KeyFile := "joe_id.pkcs8", key := 'j', Roles := [] })
    (go "mary") { KeyFile := "mary_id.pkcs8", key := 'm', Roles := [] }

/-- A call context whose incoming metadata is `jwt: [tok]`. -/
def ctxWithToken (tok : String) : Context :=
  { incoming := some (MD.Pairs "jwt" tok), outgoing := none, err := none }

/-- A registry whose only entry is registered under the empty string. -/
def anonRbac : Registry Char := fun uid =>
  if uid = go "" then some { KeyFile := "anon.pkcs8", key := 'a', Roles := ["reader"] } else none

/-- The identity that is the single byte 0xff, which is not valid UTF-8. -/
def rawUid : GoString := [GoChar.raw 255]

/-- The token the small library issues under the key `j` for `rawUid`: the key, then the
identity as `encoding/json` writes it. -/
def rawToken : String := String.mk ['j', RuneError]

/-- A registry whose only entry is registered under `rawUid`, with the key `j`. -/
def rawRbac : Registry Char := fun uid =>
  if uid = rawUid then some { KeyFile := "joe_id.pkcs8", key := 'j', Roles := ["reader"] }
  else none

/-- A call context without incoming metadata. -/
def ctxNoMetadata : Context := { incoming := none, outgoing := none, err := none }

/-- A call context that is already cancelled and carries the token `tok`. -/
def ctxCancelled (tok : String) : Context :=
  { incoming := some (MD.Pairs "jwt" tok), outgoing := none, err := some "context canceled" }

/-- A call context whose incoming metadata has the key `jwt` with an empty list of values. -/
def ctxEmptyTokenList : Context :=
  { incoming := some (fun k => if k = "jwt" then some [] else none), outgoing := none,
    err := none }

/-! ## Vocabulary of the statements -/

/-- The call carries `tok` as the first value of the `jwt` entry of its incoming metadata. -/
def Carries (ctx : Context) (tok : String) : Prop :=
  ∃ md rest, ctx.incoming = some md ∧ md "jwt" = some (tok :: rest)

/-- The token `tok` claims the identity `uid`: it splits into segments `seg` whose claims
decode, without error, to a `CustomClaim` with that `UID`. -/
def ClaimsUID {K P : Type} (L : JwtLib K P) (tok : String) (seg : Segments) (uid : GoString) :
    Prop :=
  L.parseSegments tok = some seg ∧ decodeClaims seg.claims { UID := go "" } = ({ UID := uid }, none)

/-- The signature of the segments verifies under `key`. -/
abbrev VerifiesUnder {K P : Type} (L : JwtLib K P) (seg : Segments) (key : K) : Prop :=
  L.verify seg.alg seg.signingInput seg.signature key = true

/-- Some role occurs in both lists. -/
def SharedRole (R require : List String) : Prop :=
  ∃ r, r ∈ R ∧ r ∈ require

/-- Modelled from the spec: a key pair of the Token Codec (section 4.1 and the round trip of
section 8): whatever `signedString` issues under the private key `priv` splits back into the
algorithm and the claims that were signed, and its signature verifies under the public key
`pub`. -/
def JwtLib.KeyPair {K P : Type} (L : JwtLib K P) (priv : P) (pub : K) : Prop :=
  ∀ alg claims tok, L.signedString alg claims priv = .ok tok →
    ∃ seg, L.parseSegments tok = some seg ∧ seg.alg = alg ∧ seg.claims = claims ∧
      L.verify alg seg.signingInput seg.signature pub = true

/-- The entry was created by the key loading loop from a pair of `users`: no role yet, and
the key is what the key file parses to. -/
def Loaded {K : Type} (ReadFile : String → Except String String)
    (ParseRSAPublicKeyFromPEM : String → Except String K) (users : List (GoString × String))
    (uid : GoString) (info : userInfo K) : Prop :=
  info.Roles = [] ∧ (uid, info.KeyFile) ∈ users ∧
    ∃ keyBytes, ReadFile info.KeyFile = .ok keyBytes ∧
      ParseRSAPublicKeyFromPEM keyBytes = .ok info.key

/-- The roles one loop appends to the entry of `x`: one `role` for each occurrence of `x`. -/
def addRoles {K : Type} (role : String) (uids : List GoString) (x : GoString)
    (info : userInfo K) : userInfo K :=
  { info with Roles := info.Roles ++ List.replicate (uids.count x) role }

/-! ## Role matching -/

theorem matchOne_iff (h : String) (require : List String) :
    matchOne h require = true ↔ h ∈ require := by
  induction require with
  | nil => simp [matchOne]
  | cons r rs ih =>
    by_cases hr : h = r
    · simp [matchOne, hr]
    · simp [matchOne, hr, ih]

theorem matchRoles_iff (haveRoles require : List String) :
    matchRoles haveRoles require = true ↔ SharedRole haveRoles require := by
  unfold SharedRole
  induction haveRoles with
  | nil => simp [matchRoles]
  | cons h hs ih =>
    by_cases hm : matchOne h require = true
    · have hmem := (matchOne_iff h require).mp hm
      simp only [matchRoles, hm, if_true, true_iff]
      exact ⟨h, List.mem_cons_self _ _, hmem⟩
    · have hnm : ¬ h ∈ require := fun hx => hm ((matchOne_iff h require).mpr hx)
      simp only [matchRoles, hm]
      rw [if_neg (by simp), ih]
      constructor
      · rintro ⟨s, hs1, hs2⟩
        exact ⟨s, List.mem_cons_of_mem _ hs1, hs2⟩
      · rintro ⟨s, hs1, hs2⟩
        rcases List.mem_cons.mp hs1 with rfl | hs1
        · exact absurd hs2 hnm
        · exact ⟨s, hs1, hs2⟩

/-- C2: `match(have, require)` is true exactly when some string is an element of both lists;
it is false when either list is empty, it depends only on which strings occur in each list
(not on order or repetition), and it is symmetric in its two arguments. -/
theorem match_true_iff_common_element (haveRoles require : List String) :
    (matchRoles haveRoles require = true ↔ ∃ s, s ∈ haveRoles ∧ s ∈ require) ∧
    matchRoles [] require = false ∧
    matchRoles haveRoles [] = false ∧
    (∀ have2 require2 : List String,
      (∀ s, s ∈ haveRoles ↔ s ∈ have2) → (∀ s, s ∈ require ↔ s ∈ require2) →
      matchRoles haveRoles require = matchRoles have2 require2) ∧
    matchRoles haveRoles require = matchRoles require haveRoles := by
  refine ⟨matchRoles_iff _ _, rfl, ?_, ?_, ?_⟩
  · have h := matchRoles_iff haveRoles []
    cases hb : matchRoles haveRoles [] with
    | false => rfl
    | true =>
      obtain ⟨s, _, hs⟩ := h.mp hb
      simp at hs
  · intro have2 require2 h1 h2
    rw [Bool.eq_iff_iff, matchRoles_iff, matchRoles_iff]
    constructor
    · rintro ⟨s, a, b⟩
      exact ⟨s, (h1 s).mp a, (h2 s).mp b⟩
    · rintro ⟨s, a, b⟩
      exact ⟨s, (h1 s).mpr a, (h2 s).mpr b⟩
  · rw [Bool.eq_iff_iff, matchRoles_iff, matchRoles_iff]
    constructor
    · rintro ⟨s, a, b⟩
      exact ⟨s, b, a⟩
    · rintro ⟨s, a, b⟩
      exact ⟨s, b, a⟩

/-! ## The authorization interceptor: shared lemmas -/

theorem valid_of_ne {uid : GoString} (h : uid ≠ go "") : CustomClaim.Valid { UID := uid } = none := by
  simp [CustomClaim.Valid, h]

theorem keyFunc_empty {K : Type} (rbac : Registry K) (c : CustomClaim) (h : c.UID = go "") :
    keyFunc rbac c = (.error "not authorized", []) := by
  simp [keyFunc, CustomClaim.Valid, h]

theorem keyFunc_some {K : Type} (rbac : Registry K) (uid : GoString) (info : userInfo K)
    (hne : uid ≠ go "") (hreg : rbac uid = some info) :
    keyFunc rbac { UID := uid } = (.ok info.key, [uid]) := by
  simp [keyFunc, CustomClaim.Valid, hne, hreg]

theorem keyFunc_none {K : Type} (rbac : Registry K) (uid : GoString)
    (hne : uid ≠ go "") (hreg : rbac uid = none) :
    keyFunc rbac { UID := uid } = (.error "not authorized", [uid]) := by
  simp [keyFunc, CustomClaim.Valid, hne, hreg]

/-- The interceptor on a call that carries `tok`: everything after `tokenString[0]`. -/
theorem gate_of_carries {K P Req R : Type} (L : JwtLib K P) (rbac : Registry K)
    (ctx : Context) (req : Req) (info : UnaryServerInfo) (handler : Context → Req → R)
    (tok : String) (hc : Carries ctx tok) :
    authorizationInterceptor L rbac ctx req info handler =
      (let res := ParseWithClaims L tok { UID := go "" } (keyFunc rbac)
       if res.err ≠ none then ⟨.rejected .emptyMsg "not authorized", res.lookups⟩
       else
         match roleByMethod info.FullMethod with
         | none => ⟨.rejected .nil "not authorized", res.lookups⟩
         | some roles =>
           match rbac res.claims.UID with
           | none => ⟨.fault "invalid memory address or nil pointer dereference", res.lookups ++ [res.claims.UID]⟩
           | some user =>
             if !matchRoles user.Roles roles then
               ⟨.rejected .nil "not authorized", res.lookups ++ [res.claims.UID]⟩
             else ⟨.invoked (handler ctx req), res.lookups ++ [res.claims.UID]⟩) := by
  obtain ⟨md, rest, h1, h2⟩ := hc
  simp only [authorizationInterceptor, h1, h2]

/-- Verification of a token that claims a registered, non-empty identity and verifies under
the key registered for it. -/
theorem parse_accepts {K P : Type} (L : JwtLib K P) (rbac : Registry K) (tok : String)
    (seg : Segments) (uid : GoString) (info : userInfo K)
    (hne : uid ≠ go "") (hreg : rbac uid = some info)
    (hclaim : ClaimsUID L tok seg uid) (hver : VerifiesUnder L seg info.key) :
    ParseWithClaims L tok { UID := go "" } (keyFunc rbac) = ⟨{ UID := uid }, none, [uid]⟩ := by
  obtain ⟨hp, hd⟩ := hclaim
  unfold VerifiesUnder at hver
  simp only [ParseWithClaims, hp, hd, keyFunc_some rbac uid info hne hreg, hver, if_true,
    valid_of_ne hne]

/-- Verification of a token that claims a non-empty identity: the error is set when the
identity is not registered or the signature does not verify under the key registered for it. -/
theorem parse_rejects {K P : Type} (L : JwtLib K P) (rbac : Registry K) (tok : String)
    (seg : Segments) (uid : GoString)
    (hne : uid ≠ go "") (hclaim : ClaimsUID L tok seg uid)
    (hbad : ∀ info, rbac uid = some info → L.verify seg.alg seg.signingInput seg.signature info.key = false) :
    (ParseWithClaims L tok { UID := go "" } (keyFunc rbac)).err ≠ none ∧
    (ParseWithClaims L tok { UID := go "" } (keyFunc rbac)).lookups = [uid] := by
  obtain ⟨hp, hd⟩ := hclaim
  cases hreg : rbac uid with
  | none =>
    simp [ParseWithClaims, hp, hd, keyFunc_none rbac uid hne hreg]
  | some info =>
    have hv := hbad info hreg
    simp [ParseWithClaims, hp, hd, keyFunc_some rbac uid info hne hreg, hv]

theorem carries_ctxWithToken (tok : String) : Carries (ctxWithToken tok) tok :=
  ⟨MD.Pairs "jwt" tok, [], rfl, by simp [MD.Pairs]⟩

/-- When verification reports no error, the claimed identity is a key of the registry. -/
theorem parse_ok_registered {K P : Type} (L : JwtLib K P) (rbac : Registry K) (tok : String)
    (c : CustomClaim)
    (h : (ParseWithClaims L tok c (keyFunc rbac)).err = none) :
    ∃ u, rbac (ParseWithClaims L tok c (keyFunc rbac)).claims.UID = some u := by
  unfold ParseWithClaims at h ⊢
  cases hp : L.parseSegments tok with
  | none => simp [hp] at h
  | some seg =>
    simp only [hp] at h ⊢
    rcases hd : decodeClaims seg.claims c with ⟨c2, e⟩
    cases e with
    | some e => simp [hd] at h
    | none =>
      simp only [hd] at h ⊢
      by_cases hv : c2.Valid ≠ none
      · simp [keyFunc, hv] at h
      · cases hr : rbac c2.UID with
        | none => simp [keyFunc, hv, hr] at h
        | some u =>
          simp only [keyFunc, hv, hr, if_false]
          by_cases hs : L.verify seg.alg seg.signingInput seg.signature u.key = true
          · simp [hs, hr]
          · simp [keyFunc, hv, hr, hs] at h

/-- Apart from a `jwt` entry with an empty list of values, the interceptor ends without a
runtime panic. -/
theorem gate_no_fault {K P Req R : Type} (L : JwtLib K P) (rbac : Registry K)
    (ctx : Context) (req : Req) (info : UnaryServerInfo) (handler : Context → Req → R)
    (hjwt : ∀ md, ctx.incoming = some md → md "jwt" ≠ some []) :
    ∀ msg, (authorizationInterceptor L rbac ctx req info handler).outcome ≠ .fault msg := by
  intro msg
  cases h1 : ctx.incoming with
  | none => simp [authorizationInterceptor, h1]
  | some md =>
    cases h2 : md "jwt" with
    | none => simp [authorizationInterceptor, h1, h2]
    | some toks =>
      cases toks with
      | nil => exact absurd h2 (hjwt md h1)
      | cons tok rest =>
        rw [gate_of_carries L rbac ctx req info handler tok ⟨md, rest, h1, h2⟩]
        by_cases he : (ParseWithClaims L tok { UID := go "" } (keyFunc rbac)).err = none
        · obtain ⟨u, hu⟩ := parse_ok_registered L rbac tok _ he
          cases hm : roleByMethod info.FullMethod with
          | none => simp [he, hm]
          | some roles =>
            by_cases hr : matchRoles u.Roles roles = true
            · simp [he, hm, hu, hr]
            · simp [he, hm, hu, hr]
        · simp [he]

/-! ## C1: the handler is invoked exactly when a role is shared -/

/-- C1 as stated fails for the identity registered under the empty string: the token claims
UID "" and verifies under the key registered for "", the method has a policy and the role
"reader" is shared, yet the call is rejected and the handler is not invoked. -/
theorem gate_rejects_registered_empty_identity :
    anonRbac (go "") = some { KeyFile := "anon.pkcs8", key := 'a', Roles := ["reader"] } ∧
    Carries (ctxWithToken "a") "a" ∧
    ClaimsUID demoLib "a" ⟨"RS256", .object [("uid", .str (go ""))], "", "a"⟩ (go "") ∧
    VerifiesUnder demoLib ⟨"RS256", .object [("uid", .str (go ""))], "", "a"⟩ 'a' ∧
    roleByMethod "/example.Example/GetServiceValue" = some ["reader", "writer"] ∧
    SharedRole ["reader"] ["reader", "writer"] ∧
    (authorizationInterceptor demoLib anonRbac (ctxWithToken "a") ()
      ⟨"/example.Example/GetServiceValue"⟩ demoHandler).outcome
        = .rejected .emptyMsg "not authorized" := by
  refine ⟨by decide, carries_ctxWithToken "a", ⟨by decide, by decide⟩, by decide, by decide,
    ⟨"reader", by simp, by simp⟩, by decide⟩

/-- C1 (amended): for every registry, every non-empty identity `i` registered with role list
`R`, every call carrying a token that claims UID `i` and verifies under `rbac[i].key`, and every
method with an entry `P` in `roleByMethod`: the interceptor returns the handler's result if and
only if some role occurs in both `R` and `P`; when no role is shared the call is rejected with
"not authorized" and the handler is not invoked. -/
theorem gate_invokes_iff_shared_role {K P Req R : Type} (L : JwtLib K P) (rbac : Registry K)
    (ctx : Context) (req : Req) (info : UnaryServerInfo) (handler : Context → Req → R)
    (i : GoString) (u : userInfo K) (tok : String) (seg : Segments) (policy : List String)
    (hne : i ≠ go "") (hreg : rbac i = some u) (hc : Carries ctx tok)
    (hclaim : ClaimsUID L tok seg i) (hver : VerifiesUnder L seg u.key)
    (hm : roleByMethod info.FullMethod = some policy) :
    ((authorizationInterceptor L rbac ctx req info handler).outcome = .invoked (handler ctx req)
        ↔ SharedRole u.Roles policy) ∧
    (¬ SharedRole u.Roles policy →
      (authorizationInterceptor L rbac ctx req info handler).outcome
        = .rejected .nil "not authorized") := by
  rw [gate_of_carries L rbac ctx req info handler tok hc,
    parse_accepts L rbac tok seg i u hne hreg hclaim hver]
  by_cases hr : matchRoles u.Roles policy = true
  · have hs := (matchRoles_iff _ _).mp hr
    simp [hm, hreg, hr, hs]
  · have hs : ¬ SharedRole u.Roles policy := fun h => hr ((matchRoles_iff _ _).mpr h)
    simp [hm, hreg, hr, hs]

/-- Witness of C1: joe, registered as reader, carries a token signed by his key: his read is
passed to the handler, his write is rejected. -/
theorem gate_invokes_iff_shared_role_witness :
    (authorizationInterceptor demoLib demoRbac (ctxWithToken "jjoe") ()
      ⟨"/example.Example/GetServiceValue"⟩ demoHandler).outcome
        = .invoked (none, "SERVER - INVOKED") ∧
    (authorizationInterceptor demoLib demoRbac (ctxWithToken "jjoe") ()
      ⟨"/example.Example/SetServiceValue"⟩ demoHandler).outcome
        = .rejected .nil "not authorized" :=
  ⟨(gate_invokes_iff_shared_role demoLib demoRbac (ctxWithToken "jjoe") ()
      ⟨"/example.Example/GetServiceValue"⟩ demoHandler (go "joe")
      { KeyFile := "joe_id.pkcs8", key := 'j', Roles := ["reader"] } "jjoe"
      ⟨"RS256", .object [("uid", .str (go "joe"))], "joe", "j"⟩ ["reader", "writer"]
      (by decide) (by decide) (carries_ctxWithToken "jjoe") ⟨by decide, by decide⟩
      (by decide) (by decide)).1.mpr ⟨"reader", by simp, by simp⟩,
   (gate_invokes_iff_shared_role demoLib demoRbac (ctxWithToken "jjoe") ()
      ⟨"/example.Example/SetServiceValue"⟩ demoHandler (go "joe")
      { KeyFile := "joe_id.pkcs8", key := 'j', Roles := ["reader"] } "jjoe"
      ⟨"RS256", .object [("uid", .str (go "joe"))], "joe", "j"⟩ ["writer"]
      (by decide) (by decide) (carries_ctxWithToken "jjoe") ⟨by decide, by decide⟩
      (by decide) (by decide)).2 (by simp [SharedRole])⟩

/-! ## C3: default deny for a method without policy -/

/-- C3: for a method without entry in `roleByMethod`, whatever the registry, the token and
the caller's roles, the interceptor never returns the handler's result, and every call that
carries a token (or has no metadata or no `jwt` entry at all) is rejected with the error
"not authorized". -/
theorem unconfigured_method_rejected {K P Req R : Type} (L : JwtLib K P) (rbac : Registry K)
    (ctx : Context) (req : Req) (info : UnaryServerInfo) (handler : Context → Req → R)
    (hm : roleByMethod info.FullMethod = none) :
    (∀ x, (authorizationInterceptor L rbac ctx req info handler).outcome ≠ .invoked x) ∧
    ((∀ md, ctx.incoming = some md → md "jwt" ≠ some []) →
      ∃ resp, (authorizationInterceptor L rbac ctx req info handler).outcome
        = .rejected resp "not authorized") := by
  cases h1 : ctx.incoming with
  | none => simp [authorizationInterceptor, h1]
  | some md =>
    cases h2 : md "jwt" with
    | none => simp [authorizationInterceptor, h1, h2]
    | some toks =>
      cases toks with
      | nil => simp [authorizationInterceptor, h1, h2]
      | cons tok rest =>
        rw [gate_of_carries L rbac ctx req info handler tok ⟨md, rest, h1, h2⟩]
        by_cases he : (ParseWithClaims L tok { UID := go "" } (keyFunc rbac)).err = none
        · simp [he, hm]
        · simp [he]

/-- Witness of C3: joe, with a token signed by his key, calls a method that has no policy. -/
theorem unconfigured_method_rejected_witness :
    roleByMethod "/example.Example/DeleteServiceValue" = none ∧
    (authorizationInterceptor demoLib demoRbac (ctxWithToken "jjoe") ()
      ⟨"/example.Example/DeleteServiceValue"⟩ demoHandler).outcome
        = .rejected .nil "not authorized" ∧
    ((∀ x, (authorizationInterceptor demoLib demoRbac (ctxWithToken "jjoe") ()
        ⟨"/example.Example/DeleteServiceValue"⟩ demoHandler).outcome ≠ .invoked x) ∧
     ((∀ md, (ctxWithToken "jjoe").incoming = some md → md "jwt" ≠ some []) →
      ∃ resp, (authorizationInterceptor demoLib demoRbac (ctxWithToken "jjoe") ()
        ⟨"/example.Example/DeleteServiceValue"⟩ demoHandler).outcome
          = .rejected resp "not authorized")) :=
  ⟨by decide, by decide,
   unconfigured_method_rejected demoLib demoRbac (ctxWithToken "jjoe") ()
     ⟨"/example.Example/DeleteServiceValue"⟩ demoHandler (by decide)⟩

/-! ## C4: the signature is checked against the key of the claimed identity -/

/-- C4: for a token claiming a non-empty UID `i`, the key resolver yields exactly
`rbac[i].key` and fails when `i` is not a key of `rbac`; the outcome of the call does not
depend on how the signature verifies under any other key; and when the signature does not
verify under `rbac[i].key` (or `i` is not registered) the call is rejected and the handler is
not invoked, whatever the keys registered for other identities. -/
theorem key_of_claimed_identity_decides {K P Req R : Type} (L : JwtLib K P) (rbac : Registry K)
    (ctx : Context) (req : Req) (info : UnaryServerInfo) (handler : Context → Req → R)
    (i : GoString) (tok : String) (seg : Segments)
    (hne : i ≠ go "") (hc : Carries ctx tok) (hclaim : ClaimsUID L tok seg i) :
    (∀ u, rbac i = some u → keyFunc rbac { UID := i } = (.ok u.key, [i])) ∧
    (rbac i = none → keyFunc rbac { UID := i } = (.error "not authorized", [i])) ∧
    (∀ u, rbac i = some u → ∀ verify2 : String → String → String → K → Bool,
      verify2 seg.alg seg.signingInput seg.signature u.key
        = L.verify seg.alg seg.signingInput seg.signature u.key →
      authorizationInterceptor { L with verify := verify2 } rbac ctx req info handler
        = authorizationInterceptor L rbac ctx req info handler) ∧
    ((∀ u, rbac i = some u → ¬ VerifiesUnder L seg u.key) →
      (authorizationInterceptor L rbac ctx req info handler).outcome
        = .rejected .emptyMsg "not authorized") := by
  refine ⟨fun u hu => keyFunc_some rbac i u hne hu, fun hu => keyFunc_none rbac i hne hu, ?_, ?_⟩
  · intro u hu verify2 hv
    have hclaim2 : ClaimsUID ({ L with verify := verify2 } : JwtLib K P) tok seg i := hclaim
    rw [gate_of_carries L rbac ctx req info handler tok hc,
      gate_of_carries _ rbac ctx req info handler tok hc]
    have hp : ParseWithClaims ({ L with verify := verify2 } : JwtLib K P) tok { UID := go "" }
        (keyFunc rbac) = ParseWithClaims L tok { UID := go "" } (keyFunc rbac) := by
      obtain ⟨hp, hd⟩ := hclaim
      simp only [ParseWithClaims, hp, hd, keyFunc_some rbac i u hne hu, hv]
    rw [hp]
  · intro hbad
    have hb : ∀ u, rbac i = some u →
        L.verify seg.alg seg.signingInput seg.signature u.key = false := by
      intro u hu
      have := hbad u hu
      simpa [VerifiesUnder] using this
    obtain ⟨he, _⟩ := parse_rejects L rbac tok seg i hne hclaim hb
    rw [gate_of_carries L rbac ctx req info handler tok hc]
    simp [he]

/-- Witness of C4: a token that claims joe but is signed with mary's key: the signature
verifies under the key registered for mary, not under the one registered for joe, and the
call is rejected. -/
theorem key_of_claimed_identity_decides_witness :
    VerifiesUnder demoLib ⟨"RS256", .object [("uid", .str (go "joe"))], "joe", "m"⟩ 'm' ∧
    ¬ VerifiesUnder demoLib ⟨"RS256", .object [("uid", .str (go "joe"))], "joe", "m"⟩ 'j' ∧
    (authorizationInterceptor demoLib demoRbac (ctxWithToken "mjoe") ()
      ⟨"/example.Example/SetServiceValue"⟩ demoHandler).outcome
        = .rejected .emptyMsg "not authorized" :=
  ⟨by decide, by decide,
   (key_of_claimed_identity_decides demoLib demoRbac (ctxWithToken "mjoe") ()
      ⟨"/example.Example/SetServiceValue"⟩ demoHandler (go "joe") "mjoe"
      ⟨"RS256", .object [("uid", .str (go "joe"))], "joe", "m"⟩
      (by decide) (carries_ctxWithToken "mjoe") ⟨by decide, by decide⟩).2.2.2
      (fun u hu => by
        have hk : u = { KeyFile := "joe_id.pkcs8", key := 'j', Roles := ["reader"] } := by
          have h0 : demoRbac (go "joe")
              = some { KeyFile := "joe_id.pkcs8", key := 'j', Roles := ["reader"] } := by decide
          rw [h0] at hu
          exact (Option.some.inj hu).symm
        subst hk
        decide)⟩

/-! ## C5: an empty UID is rejected before any registry lookup -/

/-- C5: a call carrying a token whose decoded claim has an empty UID is rejected for every
registry; the key resolver returns its error without reading the registry, and the
interceptor as a whole reads the registry with no key at all. -/
theorem empty_uid_rejected_without_lookup {K P Req R : Type} (L : JwtLib K P) (rbac : Registry K)
    (ctx : Context) (req : Req) (info : UnaryServerInfo) (handler : Context → Req → R)
    (tok : String) (seg : Segments)
    (hc : Carries ctx tok) (hp : L.parseSegments tok = some seg)
    (hd : (decodeClaims seg.claims { UID := go "" }).1.UID = go "") :
    keyFunc rbac (decodeClaims seg.claims { UID := go "" }).1 = (.error "not authorized", []) ∧
    authorizationInterceptor L rbac ctx req info handler
      = ⟨.rejected .emptyMsg "not authorized", []⟩ := by
  refine ⟨keyFunc_empty rbac _ hd, ?_⟩
  rw [gate_of_carries L rbac ctx req info handler tok hc]
  rcases hdec : decodeClaims seg.claims { UID := go "" } with ⟨c2, e⟩
  rw [hdec] at hd
  cases e with
  | some e => simp [ParseWithClaims, hp, hdec]
  | none => simp [ParseWithClaims, hp, hdec, keyFunc_empty rbac c2 hd]

/-- Witness of C5: the registry has an entry under the empty string with key `a`, and the
token claims the empty UID with a signature that verifies under `a`. -/
theorem empty_uid_rejected_without_lookup_witness :
    VerifiesUnder demoLib ⟨"RS256", .object [("uid", .str (go ""))], "", "a"⟩ 'a' ∧
    authorizationInterceptor demoLib anonRbac (ctxWithToken "a") ()
      ⟨"/example.Example/GetServiceValue"⟩ demoHandler
        = ⟨.rejected .emptyMsg "not authorized", []⟩ :=
  ⟨by decide,
   (empty_uid_rejected_without_lookup demoLib anonRbac (ctxWithToken "a") ()
      ⟨"/example.Example/GetServiceValue"⟩ demoHandler "a"
      ⟨"RS256", .object [("uid", .str (go ""))], "", "a"⟩
      (carries_ctxWithToken "a") (by decide) (by decide)).2⟩

/-! ## C6: what a rejected call returns -/

/-- C6 as stated fails: the rejection of a call without metadata returns the pair
(`&empty.Empty{}`, "not authorized"), the rejection of a verified call to a method without
policy returns the pair (`nil`, "not authorized"); the two pairs differ. -/
theorem rejections_differ_in_response :
    (authorizationInterceptor demoLib demoRbac ctxNoMetadata ()
      ⟨"/example.Example/GetServiceValue"⟩ demoHandler).outcome
        = .rejected .emptyMsg "not authorized" ∧
    (authorizationInterceptor demoLib demoRbac (ctxWithToken "jjoe") ()
      ⟨"/example.Example/DeleteServiceValue"⟩ demoHandler).outcome
        = .rejected .nil "not authorized" ∧
    (authorizationInterceptor demoLib demoRbac ctxNoMetadata ()
      ⟨"/example.Example/GetServiceValue"⟩ demoHandler).outcome
      ≠ (authorizationInterceptor demoLib demoRbac (ctxWithToken "jjoe") ()
      ⟨"/example.Example/DeleteServiceValue"⟩ demoHandler).outcome := by
  refine ⟨by decide, by decide, by decide⟩

/-- C6 (amended): every rejection of the interceptor carries the error "not authorized",
on each of the five paths (no metadata, no `jwt` entry, token verification failure, method
without policy, no shared role); a call without metadata and a call whose metadata lacks the
`jwt` entry return the same pair, `&empty.Empty{}` with that error. -/
theorem rejections_share_error {K P Req R : Type} (L : JwtLib K P) (rbac : Registry K)
    (ctx : Context) (req : Req) (info : UnaryServerInfo) (handler : Context → Req → R) :
    (∀ resp err, (authorizationInterceptor L rbac ctx req info handler).outcome
        = .rejected resp err → err = "not authorized") ∧
    (ctx.incoming = none →
      authorizationInterceptor L rbac ctx req info handler
        = ⟨.rejected .emptyMsg "not authorized", []⟩) ∧
    (∀ md, ctx.incoming = some md → md "jwt" = none →
      authorizationInterceptor L rbac ctx req info handler
        = ⟨.rejected .emptyMsg "not authorized", []⟩) ∧
    (∀ tok, Carries ctx tok →
      (ParseWithClaims L tok { UID := go "" } (keyFunc rbac)).err ≠ none →
      ∃ resp, (authorizationInterceptor L rbac ctx req info handler).outcome
        = .rejected resp "not authorized") ∧
    (∀ tok, Carries ctx tok →
      (ParseWithClaims L tok { UID := go "" } (keyFunc rbac)).err = none →
      roleByMethod info.FullMethod = none →
      ∃ resp, (authorizationInterceptor L rbac ctx req info handler).outcome
        = .rejected resp "not authorized") ∧
    (∀ tok roles u, Carries ctx tok →
      (ParseWithClaims L tok { UID := go "" } (keyFunc rbac)).err = none →
      roleByMethod info.FullMethod = some roles →
      rbac (ParseWithClaims L tok { UID := go "" } (keyFunc rbac)).claims.UID = some u →
      matchRoles u.Roles roles = false →
      ∃ resp, (authorizationInterceptor L rbac ctx req info handler).outcome
        = .rejected resp "not authorized") := by
  refine ⟨?_, ?_, ?_, ?_, ?_, ?_⟩
  · intro resp err
    cases h1 : ctx.incoming with
    | none =>
      simp only [authorizationInterceptor, h1]
      intro h
      injection h with _ h
      exact h.symm
    | some md =>
      cases h2 : md "jwt" with
      | none =>
        simp only [authorizationInterceptor, h1, h2]
        intro h
        injection h with _ h
        exact h.symm
      | some toks =>
        cases toks with
        | nil => simp [authorizationInterceptor, h1, h2]
        | cons tok rest =>
          rw [gate_of_carries L rbac ctx req info handler tok ⟨md, rest, h1, h2⟩]
          by_cases he : (ParseWithClaims L tok { UID := go "" } (keyFunc rbac)).err = none
          · obtain ⟨u, hu⟩ := parse_ok_registered L rbac tok _ he
            cases hm : roleByMethod info.FullMethod with
            | none =>
              intro h
              simp [he, hm] at h
              exact h.2.symm
            | some roles =>
              by_cases hr : matchRoles u.Roles roles = true
              · simp [he, hm, hu, hr]
              · intro h
                simp [he, hm, hu, hr] at h
                exact h.2.symm
          · intro h
            simp [he] at h
            exact h.2.symm
  · intro h1
    simp [authorizationInterceptor, h1]
  · intro md h1 h2
    simp [authorizationInterceptor, h1, h2]
  · intro tok hc he
    rw [gate_of_carries L rbac ctx req info handler tok hc]
    simp [he]
  · intro tok hc he hm
    rw [gate_of_carries L rbac ctx req info handler tok hc]
    simp [he, hm]
  · intro tok roles u hc he hm hu hr
    rw [gate_of_carries L rbac ctx req info handler tok hc]
    simp [he, hm, hu, hr]

/-! ## C9: the call context's cancellation -/

/-- C9 as stated fails: the context is cancelled when the interceptor runs, the token is
valid and the roles match, and the interceptor calls the handler with that cancelled context
(the handler reports the context error it saw). -/
theorem gate_invokes_handler_on_cancelled_context :
    (ctxCancelled "jjoe").err = some "context canceled" ∧
    (authorizationInterceptor demoLib demoRbac (ctxCancelled "jjoe") ()
      ⟨"/example.Example/GetServiceValue"⟩ demoHandler).outcome
        = .invoked (some "context canceled", "SERVER - INVOKED") := by
  refine ⟨by decide, by decide⟩

/-- C9 (amended): the interceptor does not examine the cancellation state of the call
context.  With the same metadata it takes the same path, reads the registry with the same
keys and returns the same rejection whether or not the context is cancelled or past its
deadline, and where it invokes the handler it passes the context it received. -/
theorem gate_ignores_cancellation {K P Req R : Type} (L : JwtLib K P) (rbac : Registry K)
    (ctx : Context) (req : Req) (info : UnaryServerInfo) (handler : Context → Req → R)
    (e : Option String) :
    (authorizationInterceptor L rbac { ctx with err := e } req info handler).lookups
      = (authorizationInterceptor L rbac ctx req info handler).lookups ∧
    (authorizationInterceptor L rbac { ctx with err := e } req info handler).outcome
      = (match (authorizationInterceptor L rbac ctx req info handler).outcome with
         | .invoked _ => .invoked (handler { ctx with err := e } req)
         | o => o) := by
  obtain ⟨inc, out, er⟩ := ctx
  cases inc with
  | none => simp [authorizationInterceptor]
  | some md =>
    cases h2 : md "jwt" with
    | none => simp [authorizationInterceptor, h2]
    | some toks =>
      cases toks with
      | nil => simp [authorizationInterceptor, h2]
      | cons tok rest =>
        rw [gate_of_carries L rbac ⟨some md, out, er⟩ req info handler tok ⟨md, rest, rfl, h2⟩,
          gate_of_carries L rbac ⟨some md, out, e⟩ req info handler tok ⟨md, rest, rfl, h2⟩]
        by_cases he : (ParseWithClaims L tok { UID := go "" } (keyFunc rbac)).err = none
        · obtain ⟨u, hu⟩ := parse_ok_registered L rbac tok _ he
          cases hm : roleByMethod info.FullMethod with
          | none => simp [he, hm]
          | some roles =>
            by_cases hr : matchRoles u.Roles roles = true
            · simp [he, hm, hu, hr]
            · simp [he, hm, hu, hr]
        · simp [he]

/-! ## C10: the read of the first token value -/

/-- C10 fails on the code: with the `jwt` key present and its list of values empty, the read
`tokenString[0]` is out of bounds and the interceptor stops with a runtime panic instead of
returning a rejection. -/
theorem gate_faults_on_empty_token_list :
    authorizationInterceptor demoLib demoRbac ctxEmptyTokenList ()
      ⟨"/example.Example/GetServiceValue"⟩ demoHandler
        = ⟨.fault "index out of range [0] with length 0", []⟩ := by
  decide

/-! ## C7: round trip between client and server -/

theorem runes_of_valid : ∀ g : GoString, g.ValidUTF8 = true → g.runes.map GoChar.rune = g
  | [], _ => rfl
  | .rune c :: rest, h => by
    have ih := runes_of_valid rest (by simpa [GoString.ValidUTF8] using h)
    simp [GoString.runes, ih]
  | .raw b :: rest, h => by simp [GoString.ValidUTF8] at h

theorem toValidUTF8_of_valid (g : GoString) (h : g.ValidUTF8 = true) : g.toValidUTF8 = g :=
  runes_of_valid g h

theorem toValidUTF8_ne_empty (g : GoString) (h : g ≠ go "") : g.toValidUTF8 ≠ go "" := by
  cases g with
  | nil => exact absurd rfl h
  | cons c rest =>
    cases c <;> simp [GoString.toValidUTF8, GoString.runes, go]

theorem decodeClaims_uid (uid : GoString) :
    decodeClaims (.object [("uid", .str uid)]) { UID := go "" } = ({ UID := uid }, none) := by
  have h : fieldMatchesUID "uid" = true := by decide
  simp [decodeClaims, unmarshalMembers, h]

theorem demoLib_keyPair (k : Char) : demoLib.KeyPair k k := by
  intro alg claims tok h
  simp only [demoLib] at h ⊢
  split at h
  · rename_i uid
    by_cases ha : alg = "RS256"
    · by_cases hv : uid.ValidUTF8 = true
      · simp only [ha, hv, if_true] at h
        injection h with h
        subst h
        subst ha
        have hr : go (String.mk uid.runes) = uid := runes_of_valid uid hv
        exact ⟨_, rfl, rfl, by simp only [hr], by simp⟩
      · simp [ha, hv] at h
    · simp [ha] at h
  · simp at h

/-- What the server does with the token the client issues for `uid`, valid UTF-8 or not:
the claimed identity it decodes is `uid` as `encoding/json` writes it, and the call passes
verification when that identity is registered with the public key of the pair. -/
theorem issued_token_decodes {K P Req R : Type} (SReq SR : Type) (L : JwtLib K P)
    (ReadFile : String → Except String String)
    (ParseRSAPrivateKeyFromPEM : String → Except String P)
    (uid : GoString) (keyFile keyBytes : String) (priv : P) (pub : K)
    (rbac : Registry K) (u : userInfo K) (icpt : UnaryClientInterceptor Req R)
    (hne : uid ≠ go "") (hread : ReadFile keyFile = .ok keyBytes)
    (hparse : ParseRSAPrivateKeyFromPEM keyBytes = .ok priv)
    (hpair : L.KeyPair priv pub) (hreg : rbac uid.toValidUTF8 = some u) (hkey : u.key = pub)
    (hnew : newAuthorizationInterceptor L ReadFile ParseRSAPrivateKeyFromPEM uid keyFile
      = .ok icpt) :
    ∃ tok, L.signedString "RS256" (.object [("uid", .str uid.toValidUTF8)]) priv = .ok tok ∧
      (∀ ctx method req invoker, icpt ctx method req invoker
        = invoker { ctx with outgoing := some (MD.Pairs "jwt" tok) } method req) ∧
      ParseWithClaims L tok { UID := go "" } (keyFunc rbac)
        = ⟨{ UID := uid.toValidUTF8 }, none, [uid.toValidUTF8]⟩ ∧
      (∀ (ctx : Context) (req : SReq) (info : UnaryServerInfo) (handler : Context → SReq → SR),
        authorizationInterceptor L rbac
            (deliver { ctx with outgoing := some (MD.Pairs "jwt" tok) }) req info handler
          = (match roleByMethod info.FullMethod with
             | none => ⟨.rejected .nil "not authorized", [uid.toValidUTF8]⟩
             | some roles =>
               if matchRoles u.Roles roles then
                 ⟨.invoked (handler (deliver { ctx with outgoing := some (MD.Pairs "jwt" tok) })
                    req), [uid.toValidUTF8, uid.toValidUTF8]⟩
               else ⟨.rejected .nil "not authorized", [uid.toValidUTF8, uid.toValidUTF8]⟩)) := by
  simp only [newAuthorizationInterceptor, hread, hparse] at hnew
  cases hs : L.signedString "RS256" (.object [("uid", .str uid.toValidUTF8)]) priv with
  | error e => simp [hs] at hnew
  | ok tok =>
    simp only [hs] at hnew
    injection hnew with hnew
    obtain ⟨seg, hp, halg, hcl, hv⟩ := hpair "RS256" _ tok hs
    have hclaim : ClaimsUID L tok seg uid.toValidUTF8 :=
      ⟨hp, by rw [hcl]; exact decodeClaims_uid _⟩
    have hver : VerifiesUnder L seg u.key := by
      unfold VerifiesUnder
      rw [hkey, halg]
      exact hv
    have hacc := parse_accepts L rbac tok seg uid.toValidUTF8 u
      (toValidUTF8_ne_empty uid hne) hreg hclaim hver
    refine ⟨tok, rfl, ?_, hacc, ?_⟩
    · intro ctx method req invoker
      rw [← hnew]
    · intro ctx req info handler
      rw [gate_of_carries L rbac _ req info handler tok
        ⟨MD.Pairs "jwt" tok, [], rfl, by simp [MD.Pairs]⟩, hacc]
      cases hm : roleByMethod info.FullMethod with
      | none => simp
      | some roles =>
        by_cases hr : matchRoles u.Roles roles = true
        · simp [hreg, hr]
        · simp [hreg, hr]

/-- C7 as stated fails for an identity that is not valid UTF-8, here the single byte 0xff:
`j` is a key pair, the registry holds `j` under that identity, and the client issues a token
for it; but the claims are serialised with U+FFFD in place of the byte, so the server decodes
a UID different from the identity, finds no registry entry for it and rejects the call. -/
theorem issued_token_rejected_for_invalid_utf8 :
    rawUid ≠ go "" ∧
    demoLib.KeyPair 'j' 'j' ∧
    rawRbac rawUid = some { KeyFile := "joe_id.pkcs8", key := 'j', Roles := ["reader"] } ∧
    (newAuthorizationInterceptor demoLib demoReadFile demoParseKey rawUid "joe_id"
        : Except String (UnaryClientInterceptor Empty String))
      = .ok (fun ctx method req invoker =>
          invoker { ctx with outgoing := some (MD.Pairs "jwt" rawToken) } method req) ∧
    ParseWithClaims demoLib rawToken { UID := go "" } (keyFunc rawRbac)
      = ⟨{ UID := [GoChar.rune RuneError] }, some "not authorized", [[GoChar.rune RuneError]]⟩ ∧
    [GoChar.rune RuneError] ≠ rawUid ∧
    (authorizationInterceptor demoLib rawRbac
        (deliver { ctxNoMetadata with outgoing := some (MD.Pairs "jwt" rawToken) }) ()
        ⟨"/example.Example/GetServiceValue"⟩ demoHandler).outcome
      = .rejected .emptyMsg "not authorized" := by
  refine ⟨by decide, demoLib_keyPair 'j', by decide, rfl, by decide, by decide, by decide⟩

/-- C7 (amended): for every non-empty identity `uid` that is valid UTF-8 and every key pair,
when `newAuthorizationInterceptor` returns an interceptor it has issued a token for the claims
map with the single key "uid", signed RS256 with the private key, and attaches it under "jwt"
to every outgoing call; with `rbac[uid].key` the matching public key the server's verification
accepts the token and decodes a `CustomClaim` whose `UID` is `uid`, and
`authorizationInterceptor`, on the call as delivered, goes on to the role check of `uid`
(handler invoked when a role matches, rejection for a method without policy or without a
matching role). -/
theorem issued_token_round_trip {K P Req R : Type} (SReq SR : Type) (L : JwtLib K P)
    (ReadFile : String → Except String String)
    (ParseRSAPrivateKeyFromPEM : String → Except String P)
    (uid : GoString) (keyFile keyBytes : String) (priv : P) (pub : K)
    (rbac : Registry K) (u : userInfo K) (icpt : UnaryClientInterceptor Req R)
    (hne : uid ≠ go "") (hvalid : uid.ValidUTF8 = true)
    (hread : ReadFile keyFile = .ok keyBytes)
    (hparse : ParseRSAPrivateKeyFromPEM keyBytes = .ok priv)
    (hpair : L.KeyPair priv pub) (hreg : rbac uid = some u) (hkey : u.key = pub)
    (hnew : newAuthorizationInterceptor L ReadFile ParseRSAPrivateKeyFromPEM uid keyFile
      = .ok icpt) :
    ∃ tok, L.signedString "RS256" (.object [("uid", .str uid)]) priv = .ok tok ∧
      (∀ ctx method req invoker, icpt ctx method req invoker
        = invoker { ctx with outgoing := some (MD.Pairs "jwt" tok) } method req) ∧
      ParseWithClaims L tok { UID := go "" } (keyFunc rbac) = ⟨{ UID := uid }, none, [uid]⟩ ∧
      (∀ (ctx : Context) (req : SReq) (info : UnaryServerInfo) (handler : Context → SReq → SR),
        authorizationInterceptor L rbac
            (deliver { ctx with outgoing := some (MD.Pairs "jwt" tok) }) req info handler
          = (match roleByMethod info.FullMethod with
             | none => ⟨.rejected .nil "not authorized", [uid]⟩
             | some roles =>
               if matchRoles u.Roles roles then
                 ⟨.invoked (handler (deliver { ctx with outgoing := some (MD.Pairs "jwt" tok) })
                    req), [uid, uid]⟩
               else ⟨.rejected .nil "not authorized", [uid, uid]⟩)) := by
  have hfix := toValidUTF8_of_valid uid hvalid
  have h := issued_token_decodes SReq SR L ReadFile ParseRSAPrivateKeyFromPEM
    uid keyFile keyBytes priv pub rbac u icpt hne hread hparse hpair (by rw [hfix]; exact hreg)
    hkey hnew
  rw [hfix] at h
  exact h

/-- Witness of C7: joe's client reads the key `j` from the file `joe_id`; the token it issues
is "jjoe"; a server whose registry holds `j` for joe accepts it, decodes the UID joe and
passes joe's read to the handler. -/
theorem issued_token_round_trip_witness :
    ∃ tok, tok = "jjoe" ∧
      ParseWithClaims demoLib tok { UID := go "" } (keyFunc demoRbac)
        = ⟨{ UID := go "joe" }, none, [go "joe"]⟩ ∧
      (authorizationInterceptor demoLib demoRbac
          (deliver { ctxNoMetadata with outgoing := some (MD.Pairs "jwt" tok) }) ()
          ⟨"/example.Example/GetServiceValue"⟩ demoHandler).outcome
        = .invoked (none, "SERVER - INVOKED") := by
  obtain ⟨tok, hsigned, _, haccept, hgate⟩ :=
    issued_token_round_trip Empty (Option String × String)
      demoLib demoReadFile demoParseKey (go "joe") "joe_id" "j" 'j' 'j'
      demoRbac { KeyFile := "joe_id.pkcs8", key := 'j', Roles := ["reader"] }
      (fun (ctx : Context) (method : String) (req : Empty)
          (invoker : Context → String → Empty → String) =>
        invoker { ctx with outgoing := some (MD.Pairs "jwt" "jjoe") } method req)
      (by decide) (by decide) rfl rfl (demoLib_keyPair 'j') (by decide) rfl rfl
  have htok : tok = "jjoe" := (Except.ok.inj hsigned).symm
  subst htok
  refine ⟨_, rfl, haccept, ?_⟩
  rw [hgate ctxNoMetadata () ⟨"/example.Example/GetServiceValue"⟩ demoHandler]
  decide

/-! ## C8: role assignment at start-up -/

theorem loadKeys_loaded {K : Type} (ReadFile : String → Except String String)
    (ParseRSAPublicKeyFromPEM : String → Except String K) (all : List (GoString × String)) :
    ∀ (users : List (GoString × String)) (rbac0 rbac : Registry K),
      (∀ p ∈ users, p ∈ all) →
      loadKeys ReadFile ParseRSAPublicKeyFromPEM users rbac0 = .ok rbac →
      (∀ uid info, rbac0 uid = some info →
        Loaded ReadFile ParseRSAPublicKeyFromPEM all uid info) →
      ∀ uid info, rbac uid = some info →
        Loaded ReadFile ParseRSAPublicKeyFromPEM all uid info := by
  intro users
  induction users with
  | nil =>
    intro rbac0 rbac _ h h0
    simp only [loadKeys] at h
    injection h with h
    subst h
    exact h0
  | cons p rest ih =>
    obtain ⟨uid0, file⟩ := p
    intro rbac0 rbac hsub h h0
    simp only [loadKeys] at h
    cases hr : ReadFile file with
    | error e => simp [hr] at h
    | ok keyBytes =>
      cases hk : ParseRSAPublicKeyFromPEM keyBytes with
      | error e => simp [hr, hk] at h
      | ok key =>
        simp only [hr, hk] at h
        refine ih _ rbac (fun q hq => hsub q (List.mem_cons_of_mem _ hq)) h ?_
        intro uid info hin
        unfold mapSet at hin
        by_cases hu : uid = uid0
        · subst hu
          simp only [if_true] at hin
          injection hin with hin
          subst hin
          refine ⟨?_, hsub _ (List.mem_cons_self _ _), keyBytes, hr, hk⟩
          cases h1 : rbac0 uid with
          | none => rfl
          | some i0 => exact (h0 uid i0 h1).1
        · simp only [hu, if_false] at hin
          exact h0 uid info hin

theorem assignRole_ok {K : Type} (role : String) :
    ∀ (uids : List GoString) (rbac : Registry K), (∀ uid ∈ uids, rbac uid ≠ none) →
      ∃ rbac2, assignRole role uids rbac = .ok rbac2 ∧
        ∀ x, rbac2 x = (rbac x).map (addRoles role uids x) := by
  intro uids
  induction uids with
  | nil =>
    intro rbac _
    refine ⟨rbac, rfl, fun x => ?_⟩
    cases rbac x <;> simp [addRoles]
  | cons uid rest ih =>
    intro rbac hall
    cases hu : rbac uid with
    | none => exact absurd hu (hall uid (List.mem_cons_self _ _))
    | some info =>
      have hall2 : ∀ y ∈ rest,
          mapSet rbac uid { info with Roles := info.Roles ++ [role] } y ≠ none := by
        intro y hy
        unfold mapSet
        by_cases hyu : y = uid
        · simp [hyu]
        · simp only [hyu, if_false]
          exact hall y (List.mem_cons_of_mem _ hy)
      obtain ⟨rbac2, h2, hchar⟩ := ih _ hall2
      refine ⟨rbac2, by simp only [assignRole, hu, h2], fun x => ?_⟩
      rw [hchar x]
      unfold mapSet
      by_cases hx : x = uid
      · subst hx
        simp [hu, addRoles, List.replicate_succ]
      · have hx2 : ¬ uid = x := fun h => hx h.symm
        have hadd : addRoles (K := K) role (uid :: rest) x = addRoles role rest x := by
          funext i
          simp [addRoles, List.count_cons, hx2]
        simp [hx, hadd]

theorem assignRole_error {K : Type} (role : String) :
    ∀ (uids : List GoString) (rbac : Registry K), (∃ uid ∈ uids, rbac uid = none) →
      ∃ e, assignRole role uids rbac = .error e := by
  intro uids
  induction uids with
  | nil =>
    intro rbac h
    obtain ⟨uid, hm, _⟩ := h
    simp at hm
  | cons uid rest ih =>
    intro rbac h
    cases hu : rbac uid with
    | none =>
      simp only [assignRole, hu]
      exact ⟨_, rfl⟩
    | some info =>
      obtain ⟨y, hy, hnone⟩ := h
      have hyu : y ≠ uid := by
        intro hEq
        rw [hEq, hu] at hnone
        simp at hnone
      have hy2 : y ∈ rest := by
        rcases List.mem_cons.mp hy with h1 | h1
        · exact absurd h1 hyu
        · exact h1
      obtain ⟨e, he⟩ := ih (mapSet rbac uid { info with Roles := info.Roles ++ [role] })
        ⟨y, hy2, by simp [mapSet, hyu, hnone]⟩
      exact ⟨e, by simp only [assignRole, hu, he]⟩

theorem mem_addRoles {K : Type} (role r : String) (uids : List GoString) (x : GoString)
    (info : userInfo K) :
    r ∈ (addRoles role uids x info).Roles ↔ r ∈ info.Roles ∨ (r = role ∧ x ∈ uids) := by
  simp only [addRoles, List.mem_append, List.mem_replicate]
  constructor
  · rintro (h | ⟨hc, hr⟩)
    · exact Or.inl h
    · exact Or.inr ⟨hr, List.count_pos_iff.mp (Nat.pos_of_ne_zero hc)⟩
  · rintro (h | ⟨hr, hx⟩)
    · exact Or.inl h
    · exact Or.inr ⟨Nat.pos_iff_ne_zero.mp (List.count_pos_iff.mpr hx), hr⟩

/-- The two role loops either stop at an unregistered uid or append, to every entry, its
reader roles and then its writer roles. -/
theorem assignRoles_spec {K : Type} (readers writers : List GoString) (rbac : Registry K) :
    ((∃ uid, (uid ∈ readers ∨ uid ∈ writers) ∧ rbac uid = none) ∧
      ∃ e, assignRoles readers writers rbac = .error e) ∨
    ((∀ uid, (uid ∈ readers ∨ uid ∈ writers) → rbac uid ≠ none) ∧
      ∃ rbac2, assignRoles readers writers rbac = .ok rbac2 ∧
        ∀ x, rbac2 x
          = ((rbac x).map (addRoles "reader" readers x)).map (addRoles "writer" writers x)) := by
  by_cases hR : ∃ uid ∈ readers, rbac uid = none
  · left
    obtain ⟨e, he⟩ := assignRole_error "reader" readers rbac hR
    obtain ⟨uid, hm, hn⟩ := hR
    exact ⟨⟨uid, Or.inl hm, hn⟩, e, by simp only [assignRoles, he]⟩
  · have hallR : ∀ uid ∈ readers, rbac uid ≠ none := fun uid hm hn => hR ⟨uid, hm, hn⟩
    obtain ⟨rbac1, h1, c1⟩ := assignRole_ok "reader" readers rbac hallR
    by_cases hW : ∃ uid ∈ writers, rbac uid = none
    · left
      obtain ⟨uid, hm, hn⟩ := hW
      obtain ⟨e, he⟩ := assignRole_error "writer" writers rbac1
        ⟨uid, hm, by rw [c1 uid, hn]; rfl⟩
      exact ⟨⟨uid, Or.inr hm, hn⟩, e, by simp only [assignRoles, h1, he]⟩
    · right
      have hallW : ∀ uid ∈ writers, rbac uid ≠ none := fun uid hm hn => hW ⟨uid, hm, hn⟩
      have hallW1 : ∀ uid ∈ writers, rbac1 uid ≠ none := by
        intro uid hm
        rw [c1 uid]
        cases hu : rbac uid with
        | none => exact absurd hu (hallW uid hm)
        | some i => simp
      obtain ⟨rbac2, h2, c2⟩ := assignRole_ok "writer" writers rbac1 hallW1
      refine ⟨?_, rbac2, by simp only [assignRoles, h1, h2], fun x => by rw [c2 x, c1 x]⟩
      rintro uid (hm | hm)
      · exact hallR uid hm
      · exact hallW uid hm

/-- C8: on a registry built from the user/key-file pairs, role assignment aborts with a fatal
error exactly when some uid in readers or writers is not a key of the registry.  When it does
not abort, the registry has the same identities as before, every identity listed in readers or
writers is registered, every entry holds the key parsed from its key file, and an identity's
Roles contains "reader" exactly when it is listed in readers and "writer" exactly when it is
listed in writers. -/
theorem startup_role_assignment {K : Type} (ReadFile : String → Except String String)
    (ParseRSAPublicKeyFromPEM : String → Except String K)
    (users : List (GoString × String)) (readers writers : List GoString) (rbac : Registry K)
    (hload : loadKeys ReadFile ParseRSAPublicKeyFromPEM users (fun _ => none) = .ok rbac) :
    main ReadFile ParseRSAPublicKeyFromPEM users readers writers
      = assignRoles readers writers rbac ∧
    ((∃ e, assignRoles readers writers rbac = .error e) ↔
      ∃ uid, (uid ∈ readers ∨ uid ∈ writers) ∧ rbac uid = none) ∧
    (∀ rbac2, assignRoles readers writers rbac = .ok rbac2 →
      (∀ uid, rbac2 uid = none ↔ rbac uid = none) ∧
      (∀ uid, (uid ∈ readers ∨ uid ∈ writers) → rbac2 uid ≠ none) ∧
      (∀ uid info, rbac2 uid = some info →
        ((uid, info.KeyFile) ∈ users ∧
          ∃ keyBytes, ReadFile info.KeyFile = .ok keyBytes ∧
            ParseRSAPublicKeyFromPEM keyBytes = .ok info.key) ∧
        ("reader" ∈ info.Roles ↔ uid ∈ readers) ∧
        ("writer" ∈ info.Roles ↔ uid ∈ writers))) := by
  have hL := loadKeys_loaded ReadFile ParseRSAPublicKeyFromPEM users users (fun _ => none) rbac
    (fun p hp => hp) hload (by intro uid info h; simp at h)
  refine ⟨by simp only [main, hload], ?_, ?_⟩
  · rcases assignRoles_spec readers writers rbac with ⟨hex, herr⟩ | ⟨hall, rbac2, hok, _⟩
    · exact ⟨fun _ => hex, fun _ => herr⟩
    · constructor
      · rintro ⟨e, he⟩
        rw [hok] at he
        cases he
      · rintro ⟨uid, hm, hn⟩
        exact absurd hn (hall uid hm)
  · intro rbac2 hok2
    rcases assignRoles_spec readers writers rbac with ⟨_, e, herr⟩ | ⟨hall, rbac3, hok, hchar⟩
    · rw [herr] at hok2
      cases hok2
    · rw [hok] at hok2
      injection hok2 with hEq
      subst hEq
      refine ⟨?_, ?_, ?_⟩
      · intro uid
        rw [hchar uid]
        cases rbac uid <;> simp
      · intro uid hm
        rw [hchar uid]
        cases hu : rbac uid with
        | none => exact absurd hu (hall uid hm)
        | some i => simp
      · intro uid info hin
        rw [hchar uid] at hin
        cases hu : rbac uid with
        | none => simp [hu] at hin
        | some i0 =>
          obtain ⟨hroles, hfile, hkey⟩ := hL uid i0 hu
          simp only [hu, Option.map_some'] at hin
          injection hin with hin
          subst hin
          refine ⟨⟨hfile, hkey⟩, ?_, ?_⟩
          · rw [mem_addRoles, mem_addRoles, hroles]
            simp
          · rw [mem_addRoles, mem_addRoles, hroles]
            simp

/-- Witness of C8: the registry loaded from the key files of joe and mary, with joe listed
as reader and mary as writer: start-up does not abort and assigns the two roles. -/
theorem startup_role_assignment_witness :
    main demoReadFile demoParseKey
        [(go "joe", "joe_id.pkcs8"), (go "mary", "mary_id.pkcs8")] [go "joe"] [go "mary"]
      = assignRoles [go "joe"] [go "mary"] demoLoaded ∧
    ((∃ e, assignRoles [go "joe"] [go "mary"] demoLoaded = .error e) ↔
      ∃ uid, (uid ∈ [go "joe"] ∨ uid ∈ [go "mary"]) ∧ demoLoaded uid = none) ∧
    (∀ rbac2, assignRoles [go "joe"] [go "mary"] demoLoaded = .ok rbac2 →
      (∀ uid, rbac2 uid = none ↔ demoLoaded uid = none) ∧
      (∀ uid, (uid ∈ [go "joe"] ∨ uid ∈ [go "mary"]) → rbac2 uid ≠ none) ∧
      (∀ uid info, rbac2 uid = some info →
        ((uid, info.KeyFile) ∈ [(go "joe", "joe_id.pkcs8"), (go "mary", "mary_id.pkcs8")] ∧
          ∃ keyBytes, demoReadFile info.KeyFile = .ok keyBytes ∧
            demoParseKey keyBytes = .ok info.key) ∧
        ("reader" ∈ info.Roles ↔ uid ∈ [go "joe"]) ∧
        ("writer" ∈ info.Roles ↔ uid ∈ [go "mary"]))) ∧
    (∃ rbac2, assignRoles [go "joe"] [go "mary"] demoLoaded = .ok rbac2 ∧
      (rbac2 (go "joe")).map (fun info => info.Roles) = some ["reader"] ∧
      (rbac2 (go "mary")).map (fun info => info.Roles) = some ["writer"] ∧
      (rbac2 (go "eve")).map (fun info => info.Roles) = none) :=
  ⟨(startup_role_assignment demoReadFile demoParseKey
      [(go "joe", "joe_id.pkcs8"), (go "mary", "mary_id.pkcs8")] [go "joe"] [go "mary"] demoLoaded rfl).1,
   (startup_role_assignment demoReadFile demoParseKey
      [(go "joe", "joe_id.pkcs8"), (go "mary", "mary_id.pkcs8")] [go "joe"] [go "mary"] demoLoaded rfl).2.1,
   (startup_role_assignment demoReadFile demoParseKey
      [(go "joe", "joe_id.pkcs8"), (go "mary", "mary_id.pkcs8")] [go "joe"] [go "mary"] demoLoaded rfl).2.2,
   ⟨_, rfl, by decide, by decide, by decide⟩⟩

end JwtAaa
